import Mathlib

/-!
The package go-fetcher: a shallow embedding of `fetcher.go`.

The session type `Fetcher`, its cookie jar, URL resolution, header policy,
response cache and the request pipeline are translated from `src/fetcher.go`.
Everything the package takes from the Go standard library and from the outside
world is explicit:

* `Env.urlParse` stands for `url.Parse`, `Env.urlResolve` for `(*url.URL).Parse`,
  `Env.encode` for `url.Values.Encode`;
* `Env.send i req` is what the wrapped `http.RoundTripper` answers to the
  `i`-th request it is handed, `Env.now i` what `time.Now().Unix()` returns the
  `i`-th time it is read; the two counters live in `World`;
* `Client.Do` follows `net/http`: the client of `newFetcher` has the default
  redirect policy and no cookie jar, so one call hands the transport up to ten
  requests, runs both hooks on every hop and wraps an error in a `*url.Error`;
* a run-time panic (a nil dereference) is the result `none`.
-/

namespace GoFetcher

/-! ## Data model -/

/-- The fields of `http.Cookie` the session looks at or carries along. -/
structure Cookie where
  Name : String
  Value : String
  Path : String := ""
  Domain : String := ""
deriving DecidableEq, Repr

/-- A byte slice. -/
abbrev Bytes := List Nat

/-- A Go error value: an error of the outside world, or a `*url.Error` with its
`Op`, `URL` and wrapped `Err`. -/
inductive Error where
  | raw (msg : String)
  | urlError (op : String) (url : String) (err : Error)
deriving DecidableEq, Repr

/-- An `http.Response` as the package and its client see it: the status code, the
cookies `resp.Cookies()` extracts from its `Set-Cookie` headers, what
`ioutil.ReadAll(resp.Body)` yields (the bytes read and the read error, if any), and
the `Location` header (empty when absent). -/
structure Response where
  StatusCode : Int
  Cookies : List Cookie
  Body : Bytes
  BodyErr : Option Error := none
  Location : String := ""
deriving DecidableEq, Repr

/-- A parsed `*url.URL`: its scheme, its host and what `String()` renders. -/
structure URL where
  Scheme : String
  Host : String
  Str : String
deriving DecidableEq, Repr

/-- An `io.Reader` handed in as request body: its content, and whether it is one
of the reader types for which `http.NewRequest` installs `GetBody`
(`*strings.Reader`, `*bytes.Reader`, `*bytes.Buffer`). -/
structure Reader where
  data : String
  replayable : Bool
deriving DecidableEq, Repr

/-- An `http.Header`: header name to list of values. -/
abbrev Header := String → Option (List String)

/-- An `*http.Request`. -/
structure Request where
  Method : String
  URL : URL
  Header : Header
  Body : Option Reader

/-- One entry of `Fetcher.Cache`. -/
structure CacheResponse where
  Resp : Option Response
  Body : Bytes
  CacheTime : Int
deriving DecidableEq, Repr

/-- The `CustomHeader` struct. `Custom` is a Go map; the list holds its entries
in the order `range` visits them, and a map has each key once. -/
structure CustomHeader where
  Agent : String
  Custom : List (String × String)
deriving DecidableEq, Repr

/-- The `Fetcher` struct (the `Client` field is the fixed pipeline `fetcherTransport`). -/
structure Fetcher where
  Https : Bool
  Host : String
  Referer : String
  CacheTime : Int
  AutoHost : Bool
  Cookies : List Cookie
  Header : CustomHeader
  Cache : String → Option CacheResponse

/-- Embedding of `url.Values`. -/
abbrev Values := List (String × List String)

/-- What the package takes from outside. -/
structure Env where
  urlParse : String → Except Error URL
  urlResolve : URL → String → Except Error URL
  encode : Values → String
  send : Nat → Request → Except Error Response
  now : Nat → Int

/-- How many requests the wrapped transport has been handed and how many times
the clock has been read. -/
structure World where
  sends : Nat
  clockReads : Nat
deriving DecidableEq, Repr

/-- The three named results `(resp, body, err)` of `Get`, `Post`, ... -/
structure Result where
  resp : Option Response
  body : Bytes
  err : Option Error
deriving DecidableEq, Repr

/-! ## Integers and strings -/

/-- Two-complement wrap-around of `int64` arithmetic. -/
def wrapInt64 (x : Int) : Int := (x + 2 ^ 63) % 2 ^ 64 - 2 ^ 63

/-- Scan for `sep`, returning the position of its first occurrence or `-1`. -/
def indexFrom (sep : List Char) : List Char → Nat → Int
  | [], i => if sep.isEmpty then (i : Int) else -1
  | c :: cs, i => if sep.isPrefixOf (c :: cs) then (i : Int) else indexFrom sep cs (i + 1)

/-- Embedding of `strings.Index`. Positions are counted in characters (Go counts bytes); the
package only compares the result with `0`. -/
def stringsIndex (s sep : String) : Int := indexFrom sep.data s.data 0

/-! ## Cookie jar -/

/-- The inner loop of `mergeCookie`: overwrite the first cookie of the jar whose
name is `c.Name` (`f.Cookies[idx] = c; goto next`); `none` when the loop runs to its end. -/
def replaceByName (c : Cookie) : List Cookie → Option (List Cookie)
  | [] => none
  | cs :: rest =>
    if c.Name = cs.Name then some (c :: rest)
    else (replaceByName c rest).map (fun r => cs :: r)

/-- The outer loop of `mergeCookie` over `resp.Cookies()`; the state is the jar
and `newCookies[:length]`. -/
def mergeLoop : List Cookie → List Cookie → List Cookie → List Cookie × List Cookie
  | [], jar, newCookies => (jar, newCookies)
  | c :: cookies, jar, newCookies =>
    match replaceByName c jar with
    | some jar1 => mergeLoop cookies jar1 newCookies
    | none => mergeLoop cookies jar (newCookies ++ [c])

/-- Embedding of `Fetcher.mergeCookie`, on the jar alone. -/
def mergeJar (jar : List Cookie) (cookies : List Cookie) : List Cookie :=
  let r := mergeLoop cookies jar []
  r.1 ++ r.2

/-- Embedding of `Fetcher.mergeCookie`. -/
def mergeCookie (f : Fetcher) (resp : Response) : Fetcher :=
  { f with Cookies := mergeJar f.Cookies resp.Cookies }

/-! ## URL resolution -/

/-- Embedding of `Fetcher.makeUrl`. In the branch of an absolute path the source evaluates
`err != nil && f.AutoHost && uu.Host != ""` on the results of `url.Parse`: when
`err != nil` the URL `uu` is nil, so with `AutoHost` set the test dereferences nil
and the call panics (`none`); when `err == nil` the test is false and the
assignment `f.Host = uu.Host` is skipped. -/
def makeUrl (env : Env) (f : Fetcher) (path : String) : Option (String × Fetcher) :=
  let u := path
  let idx := stringsIndex path "://"
  if idx ≤ 0 then
    let u := if f.Host ≠ "" then f.Host ++ u else u
    let scheme := if f.Https then "https" else "http"
    some (scheme ++ "://" ++ u, f)
  else
    match env.urlParse path with
    | .error _ => if f.AutoHost then none else some (u, f)
    | .ok _ => some (u, f)

/-! ## Headers -/

/-- The bytes `net/textproto` accepts in a header field name: letters, digits and
the token punctuation of RFC 7230 (given by character code). -/
def validHeaderFieldByte (c : Char) : Bool :=
  c.isAlphanum || [33, 35, 36, 37, 38, 39, 42, 43, 45, 46, 94, 95, 96, 124, 126].contains c.toNat

/-- The rewriting loop of `textproto.CanonicalMIMEHeaderKey`: upper case for the
first letter and for each letter after a hyphen, lower case elsewhere. -/
def canonLoop : Bool → List Char → List Char
  | _, [] => []
  | upper, c :: cs =>
    let c1 := if upper && c.isLower then c.toUpper
              else if !upper && c.isUpper then c.toLower else c
    c1 :: canonLoop (c1 == '-') cs

/-- Embedding of `textproto.CanonicalMIMEHeaderKey`, which `http.Header.Set` and
`http.Header.Get` apply to the key: a key with a byte that is not valid in a
field name is left as it is. -/
def CanonicalMIMEHeaderKey (s : String) : String :=
  if s.data.all validHeaderFieldByte then String.mk (canonLoop true s.data) else s

/-- Embedding of `http.Header.Set`. -/
def Header.Set (h : Header) (key value : String) : Header :=
  fun k => if k = CanonicalMIMEHeaderKey key then some [value] else h k

/-- Embedding of `http.Header.Get`. -/
def Header.Get (h : Header) (key : String) : String :=
  match h (CanonicalMIMEHeaderKey key) with
  | some (v :: _) => v
  | _ => ""

/-- Embedding of `http.Request.AddCookie` (the sanitising of name and value is left out). -/
def Request.AddCookie (r : Request) (c : Cookie) : Request :=
  let s := c.Name ++ "=" ++ c.Value
  let old := Header.Get r.Header "Cookie"
  if old ≠ "" then { r with Header := Header.Set r.Header "Cookie" (old ++ "; " ++ s) }
  else { r with Header := Header.Set r.Header "Cookie" s }

/-- Embedding of `CustomHeader.Set`: `c.Custom[field] = value` on the entry list of the map. -/
def CustomHeader.Set (c : CustomHeader) (field value : String) : CustomHeader :=
  if c.Custom.any (fun kv => kv.1 == field) then
    { c with Custom := c.Custom.map (fun kv => if kv.1 = field then (field, value) else kv) }
  else { c with Custom := c.Custom ++ [(field, value)] }

/-- The default `User-Agent` of `makeOtherHeader`. -/
def defaultAgent : String :=
  "Mozilla/5.0 (Macintosh; Intel Mac OS X 10_8_3) " ++
  "AppleWebKit/537.36 (KHTML, like Gecko) " ++
  "Chrome/27.0.1453.116 Safari/537.36"

/-- The `User-Agent` value `makeOtherHeader` computes before the custom headers. -/
def agentOf (f : Fetcher) : String :=
  if f.Header.Agent ≠ "" then f.Header.Agent else defaultAgent

/-- The six `req.Header.Set` calls of `makeOtherHeader`, in source order. -/
def fixedHeaders (origin agent : String) : List (String × String) :=
  [("Accept", "application/json, text/javascript, */*; q=0.01"),
   ("Origin", origin),
   ("X-Requested-With", "XMLHttpRequest"),
   ("User-Agent", agent),
   ("Accept-Encoding", "none"),
   ("Accept-Language", "en-US,en;q=0.8")]

/-- A run of `req.Header.Set(key, val)` calls. -/
def setAll (h : Header) (kvs : List (String × String)) : Header :=
  kvs.foldl (fun h kv => Header.Set h kv.1 kv.2) h

/-- Embedding of `Fetcher.makeOtherHeader`. -/
def makeOtherHeader (env : Env) (f : Fetcher) (req : Request) : Option (Request × Fetcher) :=
  match makeUrl env f "" with
  | none => none
  | some (origin, f1) =>
    let h := setAll req.Header (fixedHeaders origin (agentOf f1))
    some ({ req with Header := setAll h f1.Header.Custom }, f1)

/-- Embedding of `Fetcher.insertCookie`. -/
def insertCookie (f : Fetcher) (req : Request) : Request :=
  f.Cookies.foldl Request.AddCookie req

/-- Embedding of `Fetcher.insertReferer`. -/
def insertReferer (f : Fetcher) (req : Request) : Request :=
  if f.Referer ≠ "" then { req with Header := Header.Set req.Header "Referer" f.Referer }
  else req

/-! ## Response cache -/

/-- Embedding of `delete(f.Cache, key)`. -/
def cacheDelete (f : Fetcher) (key : String) : Fetcher :=
  { f with Cache := fun k => if k = key then none else f.Cache k }

/-- Embedding of `Fetcher.loadCache`; the clock is read only when the key has an entry. -/
def loadCache (env : Env) (f : Fetcher) (w : World) (key : String) :
    (Option Response × Bytes × Bool) × Fetcher × World :=
  match f.Cache key with
  | none => ((none, [], false), f, w)
  | some r =>
    let now := env.now w.clockReads
    let w1 := { w with clockReads := w.clockReads + 1 }
    if wrapInt64 (now - r.CacheTime) > f.CacheTime then
      ((none, [], false), cacheDelete f key, w1)
    else ((r.Resp, r.Body, true), f, w1)

/-- Embedding of `Fetcher.saveCache`. -/
def saveCache (env : Env) (f : Fetcher) (w : World) (key : String)
    (resp : Option Response) (body : Bytes) : Fetcher × World :=
  let r : CacheResponse := ⟨resp, body, env.now w.clockReads⟩
  ({ f with Cache := fun k => if k = key then some r else f.Cache k },
   { w with clockReads := w.clockReads + 1 })

/-- Embedding of `Fetcher.RemoveGetCache`. -/
def RemoveGetCache (f : Fetcher) (path : String) : Fetcher :=
  let key := "get-" ++ "http"
  let key := if f.Https then key ++ "s" else key
  let key := key ++ ("://" ++ f.Host ++ path)
  match f.Cache key with
  | none => f
  | some _ => cacheDelete f key

/-! ## Request pipeline -/

/-- The `Transport` struct: a wrapped round tripper and two hooks. The hooks are
closures over the session, so they act on a state `σ`. -/
structure Transport (σ : Type) where
  tr : Request → σ → Except Error Response × σ
  BeforeReq : Request → σ → Option (Request × σ)
  AfterReq : Response → Request → σ → σ

/-- Embedding of `Transport.RoundTrip`. -/
def Transport.RoundTrip {σ : Type} (t : Transport σ) (req : Request) (s : σ) :
    Option (Except Error Response × Request × σ) :=
  match t.BeforeReq req s with
  | none => none
  | some (req1, s1) =>
    match t.tr req1 s1 with
    | (.error e, s2) => some (.error e, req1, s2)
    | (.ok resp, s2) => some (.ok resp, req1, t.AfterReq resp req1 s2)

/-- The `BeforeReq` closure of `newFetcher`. -/
def beforeReq (env : Env) (req : Request) (s : Fetcher × World) :
    Option (Request × (Fetcher × World)) :=
  match makeOtherHeader env s.1 req with
  | none => none
  | some (req1, f1) => some (insertReferer f1 (insertCookie f1 req1), (f1, s.2))

/-- The `AfterReq` closure of `newFetcher`. -/
def afterReq (resp : Response) (req : Request) (s : Fetcher × World) : Fetcher × World :=
  ({ mergeCookie s.1 resp with Referer := req.URL.Str }, s.2)

/-- The transport `newFetcher` installs in `f.Client`. -/
def fetcherTransport (env : Env) : Transport (Fetcher × World) where
  tr := fun req s => (env.send s.2.sends req, (s.1, { s.2 with sends := s.2.sends + 1 }))
  BeforeReq := beforeReq env
  AfterReq := afterReq

/-- Embedding of `http.NewRequest` for the methods the package uses: it fails when
the URL does not parse; a nil body is `none`. -/
def NewRequest (env : Env) (method url : String) (body : Option Reader) :
    Except Error Request :=
  match env.urlParse url with
  | .error e => .error e
  | .ok u => .ok ⟨method, u, fun _ => none, body⟩

/-! ## The HTTP client -/

/-- The status codes on which `net/http` considers a redirect. -/
def isRedirectStatus (code : Int) : Bool :=
  code == 301 || code == 302 || code == 303 || code == 307 || code == 308

/-- Embedding of `redirectBehavior` of `net/http`: the method of the follow-up
request, whether to redirect, and whether to send the body again. On 301, 302 and
303 every method but `GET` and `HEAD` becomes `GET` and the body is dropped; on 307
and 308 method and body are kept, and there is no redirect when the first request
has a body that cannot be replayed. -/
def redirectBehavior (reqMethod : String) (resp : Response) (ibody : Option Reader) :
    String × Bool × Bool :=
  if resp.StatusCode = 301 ∨ resp.StatusCode = 302 ∨ resp.StatusCode = 303 then
    (if reqMethod ≠ "GET" ∧ reqMethod ≠ "HEAD" then "GET" else reqMethod, true, false)
  else if resp.StatusCode = 307 ∨ resp.StatusCode = 308 then
    (reqMethod,
      (match ibody with
        | some r => r.replayable
        | none => true),
      true)
  else ("", false, false)

/-- Embedding of `refererForURL` of `net/http`. -/
def refererForURL (lastReq newReq : URL) (explicitRef : String) : String :=
  if lastReq.Scheme = "https" ∧ newReq.Scheme = "http" then ""
  else if explicitRef ≠ "" then explicitRef
  else lastReq.Str

/-- The header of a follow-up request: the header of the first request of the
call as the hooks left it, with `Referer` set by `refererForURL` (the stripping of
sensitive headers on a change of domain is left out). -/
def redirectHeader (ihdr : Header) (lastReq newReq : URL) : Header :=
  let ref := refererForURL lastReq newReq (Header.Get ihdr "Referer")
  if ref ≠ "" then Header.Set ihdr "Referer" ref else ihdr

/-- Embedding of `urlErrorOp` of `net/http`: `Get` for `GET`, `Post` for `POST`. -/
def urlErrorOp (method : String) : String :=
  match method.data with
  | [] => "Get"
  | c :: cs => String.mk (c :: cs.map Char.toLower)

/-- The loop of `http.Client.do` from the send of `req` on, with `left` further
redirects allowed. The transport runs `BeforeReq`, the send and `AfterReq`; an error
of the transport is returned in a `*url.Error` with no response. A response that
`redirectBehavior` redirects and that has a `Location` leads to a follow-up request,
unless ten requests have been sent: then `defaultCheckRedirect` fails and the
client returns the response together with an error. `ihdr` is the header of the
first request once a redirect has cloned it, `ibody` the body of the first request. -/
def doHops {σ : Type} (env : Env) (t : Transport σ) (op : String) (ibody : Option Reader) :
    Nat → Option Header → Request → σ → Option ((Option Response × Option Error) × σ)
  | left, ihdr, req, s =>
    match t.RoundTrip req s with
    | none => none
    | some (.error e, _, s1) => some ((none, some (.urlError op req.URL.Str e)), s1)
    | some (.ok resp, req1, s1) =>
      match redirectBehavior req.Method resp ibody with
      | (_, false, _) => some ((some resp, none), s1)
      | (method, true, includeBody) =>
        if resp.Location = "" then some ((some resp, none), s1)
        else
          match env.urlResolve req.URL resp.Location with
          | .error _ =>
            some ((none, some (.urlError op req.URL.Str
              (.raw "failed to parse Location header"))), s1)
          | .ok u =>
            match left with
            | 0 =>
              some ((some resp, some (.urlError op resp.Location
                (.raw "stopped after 10 redirects"))), s1)
            | left1 + 1 =>
              let hdr := match ihdr with
                | some h => h
                | none => req1.Header
              let body := if includeBody then ibody else none
              doHops env t op ibody left1 (some hdr)
                ⟨method, u, redirectHeader hdr req.URL u, body⟩ s1

/-- Embedding of `http.Client.Do` for a client with the default redirect policy:
the first request and up to nine follow-up requests. -/
def Client.Do {σ : Type} (env : Env) (t : Transport σ) (req : Request) (s : σ) :
    Option ((Option Response × Option Error) × σ) :=
  doHops env t (urlErrorOp req.Method) req.Body 9 none req s

/-- Embedding of `Fetcher.request`: `f.Client.Do(req)`, then, when that returned no
error, `ioutil.ReadAll(resp.Body)`. The client never returns a nil response with a
nil error. -/
def request (env : Env) (f : Fetcher) (w : World) (req : Request) :
    Option (Result × Fetcher × World) :=
  match Client.Do env (fetcherTransport env) req (f, w) with
  | none => none
  | some ((resp, some e), s) => some (⟨resp, [], some e⟩, s.1, s.2)
  | some ((none, none), _) => none
  | some ((some resp, none), s) => some (⟨some resp, resp.Body, resp.BodyErr⟩, s.1, s.2)

/-- Embedding of `Fetcher.Get`. -/
def Get (env : Env) (f : Fetcher) (w : World) (path : String) :
    Option (Result × Fetcher × World) :=
  match makeUrl env f path with
  | none => none
  | some (path1, f1) =>
    match NewRequest env "GET" path1 none with
    | .error e => some (⟨none, [], some e⟩, f1, w)
    | .ok req =>
      let key := "get-" ++ path1
      match loadCache env f1 w key with
      | ((resp, body, true), f2, w2) => some (⟨resp, body, none⟩, f2, w2)
      | ((_, _, false), f2, w2) =>
        match request env f2 w2 req with
        | none => none
        | some (r, f3, w3) =>
          if r.err.isSome then some (r, f3, w3)
          else if f3.CacheTime > 0 then
            let s := saveCache env f3 w3 key r.resp r.body
            some (r, s.1, s.2)
          else some (r, f3, w3)

/-- Embedding of `Fetcher.Post`. -/
def Post (env : Env) (f : Fetcher) (w : World) (path contentType : String)
    (content : Reader) : Option (Result × Fetcher × World) :=
  match makeUrl env f path with
  | none => none
  | some (path1, f1) =>
    match NewRequest env "POST" path1 (some content) with
    | .error e => some (⟨none, [], some e⟩, f1, w)
    | .ok req =>
      let req := { req with Header := Header.Set req.Header "Content-Type" contentType }
      match request env f1 w req with
      | none => none
      | some (r, f2, w2) =>
        if r.err.isSome then some (r, f2, w2)
        else some (r, { f2 with Referer := path1 }, w2)

/-- Embedding of `Fetcher.PostForm`; a nil `val` is `none`. -/
def PostForm (env : Env) (f : Fetcher) (w : World) (path : String) (val : Option Values) :
    Option (Result × Fetcher × World) :=
  let contentType := "application/x-www-form-urlencoded"
  let val := match val with
    | none => []
    | some v => v
  Post env f w path contentType ⟨env.encode val, true⟩

/-- The loop of `PostFormRetry` with `n` iterations left; `r` holds the named results. -/
def retryLoop (env : Env) (path : String) (val : Option Values) :
    Nat → Result → Fetcher → World → Option (Result × Fetcher × World)
  | 0, r, f, w => some (r, f, w)
  | n + 1, _, f, w =>
    match PostForm env f w path val with
    | none => none
    | some (r1, f1, w1) =>
      if r1.err = none then some (r1, f1, w1) else retryLoop env path val n r1 f1 w1

/-- Embedding of `Fetcher.PostFormRetry`: `for i := 0; i < tryTime; i++`. -/
def PostFormRetry (env : Env) (f : Fetcher) (w : World) (path : String) (val : Option Values)
    (tryTime : Int) : Option (Result × Fetcher × World) :=
  retryLoop env path val tryTime.toNat ⟨none, [], none⟩ f w

/-- Embedding of `NewFetcher`: the zero `Fetcher` with an empty cache map and the given host. -/
def NewFetcher (host : String) : Fetcher where
  Https := false
  Host := host
  Referer := ""
  CacheTime := 0
  AutoHost := false
  Cookies := []
  Header := ⟨"", []⟩
  Cache := fun _ => none

/-! ## Auxiliary definitions and concrete scenarios -/

/-- Overwrite every cookie named `c.Name` by `c`. -/
def overwrite (c : Cookie) (jar : List Cookie) : List Cookie :=
  jar.map (fun cs => if cs.Name = c.Name then c else cs)

/-- The origin `scheme://Host` of a session. -/
def originOf (f : Fetcher) : String :=
  (if f.Https then "https" else "http") ++ "://" ++ f.Host

/-- What `url.Parse` answers on the URLs of the scenarios below; the escape `%zz`
of `http://other.com/%zz` is malformed, so that URL is rejected. -/
def demoParse (s : String) : Except Error URL :=
  if s = "http://163.com/" then .ok ⟨"http", "163.com", s⟩
  else if s = "http://other.com/x" then .ok ⟨"http", "other.com", s⟩
  else if s = "http://example.com/path" then .ok ⟨"http", "example.com", s⟩
  else if s = "http://other.com/%zz" then
    .error (.urlError "parse" s (.raw "invalid URL escape"))
  else .error (.urlError "parse" s (.raw "parse error"))

/-- What `(*url.URL).Parse` answers on the `Location` of the scenarios: `/next`
resolves against the host of the request. -/
def demoResolve (base : URL) (ref : String) : Except Error URL :=
  if ref = "/next" then .ok ⟨base.Scheme, base.Host, base.Scheme ++ "://" ++ base.Host ++ ref⟩
  else .error (.urlError "parse" ref (.raw "parse error"))

/-- The response of the scenario transport. -/
def demoResponse : Response := ⟨200, [], [104, 105], none, ""⟩

/-- A scenario: the transport refuses its first `failures` requests and answers
every later one with `demoResponse`; the clock reads second 1000, then 1060, then
1061 from there on. -/
def demoEnv (failures : Nat) : Env where
  urlParse := demoParse
  urlResolve := demoResolve
  encode := fun _ => ""
  send := fun i _ =>
    if i < failures then .error (.raw "connection refused") else .ok demoResponse
  now := fun i => match i with
    | 0 => 1000
    | 1 => 1060
    | _ => 1061

/-- A request of the scenarios. -/
def demoRequest : Request :=
  ⟨"GET", ⟨"http", "example.com", "http://example.com/path"⟩, fun _ => none, none⟩

/-- The cookie `A` of the merge scenarios. -/
def cookieA : Cookie := ⟨"A", "1", "", ""⟩

/-- The cookie `B` of the merge scenarios. -/
def cookieB : Cookie := ⟨"B", "1", "", ""⟩

/-- The cookie `B=2` of the merge scenarios. -/
def cookieB2 : Cookie := ⟨"B", "2", "", ""⟩

/-- The cookie `C` of the merge scenarios. -/
def cookieC : Cookie := ⟨"C", "1", "", ""⟩

/-- A second cookie named `A`. -/
def cookieA2 : Cookie := ⟨"A", "2", "", ""⟩

/-- The header map `makeOtherHeader` leaves on a request: the fixed headers, then
the custom ones. -/
def otherHeader (f : Fetcher) (h : Header) : Header :=
  setAll (setAll h (fixedHeaders (originOf f) (agentOf f))) f.Header.Custom

/-- The request the `BeforeReq` closure hands to the wrapped transport: the fixed
headers, the custom headers, the cookies of the jar and the referer. -/
def decorate (f : Fetcher) (req : Request) : Request :=
  insertReferer f (insertCookie f { req with Header := otherHeader f req.Header })

/-- A session of the scenarios: host `163.com`, a referer and one cookie. -/
def demoSession : Fetcher :=
  { NewFetcher "163.com" with Referer := "http://163.com/login", Cookies := [cookieA] }

/-- A session with caching disabled (`CacheTime = 0`) whose cache map holds an
entry for `http://163.com/` stored at second 1000. -/
def staleSession : Fetcher :=
  { NewFetcher "163.com" with
    Cache := fun k =>
      if k = "get-http://163.com/" then some ⟨some demoResponse, [104, 105], 1000⟩ else none }

/-- The request `Post` builds for `PostForm` before the hooks run. -/
def postFormRequest (env : Env) (pu : URL) (val : Option Values) : Request :=
  ⟨"POST", pu,
    Header.Set (fun _ => none) "Content-Type" "application/x-www-form-urlencoded",
    some ⟨env.encode (match val with
      | none => []
      | some v => v), true⟩⟩

/-- A scenario whose transport answers its `i`-th request with the `i`-th entry of
`script`, and with `demoResponse` once the script is used up. -/
def scriptEnv (script : List (Except Error Response)) : Env where
  urlParse := demoParse
  urlResolve := demoResolve
  encode := fun _ => ""
  send := fun i _ => script.getD i (.ok demoResponse)
  now := fun _ => 1000

/-- A redirect of the scenarios: status 302 to `/next`, presenting the cookie `B`. -/
def redirectResponse : Response := ⟨302, [cookieB], [], none, "/next"⟩

/-- A response of the scenarios whose body cannot be read to its end. -/
def brokenResponse : Response := ⟨200, [], [104], some (.raw "unexpected EOF"), ""⟩

/-- A session of the scenarios with an agent override and two custom headers, one
of them naming `User-Agent`. -/
def customSession : Fetcher :=
  { NewFetcher "example.com" with
    Header := CustomHeader.Set (CustomHeader.Set ⟨"my-agent", []⟩ "user-agent" "curl")
      "X-Token" "t" }

/-! ## Cookie jar: merge -/

theorem overwrite_names (c : Cookie) (jar : List Cookie) :
    (overwrite c jar).map Cookie.Name = jar.map Cookie.Name := by
  induction jar with
  | nil => rfl
  | cons cs rest ih =>
    simp only [overwrite, List.map_cons] at ih ⊢
    rw [ih]
    by_cases h : cs.Name = c.Name <;> simp [h]

theorem overwrite_of_not_mem (c : Cookie) (jar : List Cookie)
    (h : c.Name ∉ jar.map Cookie.Name) : overwrite c jar = jar := by
  induction jar with
  | nil => rfl
  | cons cs rest ih =>
    simp only [List.map_cons, List.mem_cons, not_or] at h
    have h1 : ¬ cs.Name = c.Name := fun e => h.1 e.symm
    have h2 := ih h.2
    simp only [overwrite, List.map_cons] at h2 ⊢
    rw [h2]; simp [h1]

theorem replaceByName_eq_none (c : Cookie) (jar : List Cookie)
    (h : c.Name ∉ jar.map Cookie.Name) : replaceByName c jar = none := by
  induction jar with
  | nil => rfl
  | cons cs rest ih =>
    simp only [List.map_cons, List.mem_cons, not_or] at h
    simp [replaceByName, h.1, ih h.2]

theorem replaceByName_eq_some (c : Cookie) (jar : List Cookie)
    (hn : (jar.map Cookie.Name).Nodup) (h : c.Name ∈ jar.map Cookie.Name) :
    replaceByName c jar = some (overwrite c jar) := by
  induction jar with
  | nil => simp at h
  | cons cs rest ih =>
    simp only [List.map_cons, List.nodup_cons] at hn
    by_cases e : c.Name = cs.Name
    · have hr : c.Name ∉ rest.map Cookie.Name := e ▸ hn.1
      have e2 : cs.Name = c.Name := e.symm
      rw [replaceByName, if_pos e,
        show overwrite c (cs :: rest) = (if cs.Name = c.Name then c else cs) :: overwrite c rest
          from rfl, if_pos e2, overwrite_of_not_mem c rest hr]
    · have hm : c.Name ∈ rest.map Cookie.Name := by
        simp only [List.map_cons, List.mem_cons] at h
        rcases h with h | h
        · exact absurd h e
        · exact h
      have e2 : ¬ cs.Name = c.Name := fun x => e x.symm
      simp [replaceByName, e, ih hn.2 hm, overwrite, e2]

theorem mergeLoop_eq (cookies jar newCookies : List Cookie)
    (hn : (jar.map Cookie.Name).Nodup) :
    mergeLoop cookies jar newCookies =
      (cookies.foldl (fun j c => overwrite c j) jar,
       newCookies ++ cookies.filter (fun c => decide (c.Name ∉ jar.map Cookie.Name))) := by
  induction cookies generalizing jar newCookies with
  | nil => simp [mergeLoop]
  | cons c cookies ih =>
    by_cases h : c.Name ∈ jar.map Cookie.Name
    · have hn2 : ((overwrite c jar).map Cookie.Name).Nodup := by
        rw [overwrite_names]; exact hn
      rw [mergeLoop, replaceByName_eq_some c jar hn h]
      simp only
      rw [ih _ _ hn2, overwrite_names, List.foldl_cons,
        List.filter_cons_of_neg (by simpa using h)]
    · rw [mergeLoop, replaceByName_eq_none c jar h]
      simp only
      rw [ih _ _ hn, List.foldl_cons, overwrite_of_not_mem c jar h,
        List.filter_cons_of_pos (by simpa using h)]
      simp

theorem foldl_overwrite (cookies jar : List Cookie)
    (hc : (cookies.map Cookie.Name).Nodup) :
    cookies.foldl (fun j c => overwrite c j) jar =
      jar.map (fun cs => (cookies.find? (fun c => c.Name = cs.Name)).getD cs) := by
  induction cookies generalizing jar with
  | nil => simp
  | cons c cookies ih =>
    simp only [List.map_cons, List.nodup_cons] at hc
    rw [List.foldl_cons, ih _ hc.2, overwrite, List.map_map]
    apply List.map_congr_left
    intro cs _
    by_cases e : cs.Name = c.Name
    · have hnone : cookies.find? (fun x => decide (x.Name = c.Name)) = none := by
        rw [List.find?_eq_none]
        intro x hx hxe
        simp only [decide_eq_true_eq] at hxe
        exact hc.1 (hxe ▸ List.mem_map_of_mem _ hx)
      simp [e, List.find?_cons, hnone]
    · have e2 : ¬ c.Name = cs.Name := fun x => e x.symm
      simp [e, e2, List.find?_cons]

theorem mergeJar_eq (jar cookies : List Cookie)
    (hjar : (jar.map Cookie.Name).Nodup) (hresp : (cookies.map Cookie.Name).Nodup) :
    mergeJar jar cookies =
      jar.map (fun cs => (cookies.find? (fun c => c.Name = cs.Name)).getD cs)
        ++ cookies.filter (fun c => decide (c.Name ∉ jar.map Cookie.Name)) := by
  simp [mergeJar, mergeLoop_eq cookies jar [] hjar, foldl_overwrite cookies jar hresp]

/-- When the jar and the response each name every cookie once, the merged jar
names every cookie once. -/
theorem mergeJar_names_nodup (jar cookies : List Cookie)
    (hjar : (jar.map Cookie.Name).Nodup) (hresp : (cookies.map Cookie.Name).Nodup) :
    ((mergeJar jar cookies).map Cookie.Name).Nodup := by
  rw [mergeJar_eq jar cookies hjar hresp, List.map_append, List.map_map]
  have h1 : (jar.map (Cookie.Name ∘ fun cs =>
      (cookies.find? (fun c => c.Name = cs.Name)).getD cs)) = jar.map Cookie.Name := by
    apply List.map_congr_left
    intro cs _
    simp only [Function.comp]
    cases hf : cookies.find? (fun c => decide (c.Name = cs.Name)) with
    | none => rfl
    | some c => simpa using List.find?_some hf
  rw [h1, List.nodup_append]
  refine ⟨hjar, hresp.sublist ((List.filter_sublist _).map _), ?_⟩
  intro a ha hb
  simp only [List.mem_map, List.mem_filter, decide_eq_true_eq] at hb
  obtain ⟨c, ⟨_, hc⟩, rfl⟩ := hb
  exact hc (by simpa using ha)

/-- C1. For a jar whose cookies have pairwise distinct names and a response whose
cookies have pairwise distinct names, `mergeCookie` leaves in the jar the original
cookies in their original positions, each replaced by the response cookie of the
same name when the response has one, followed by the response cookies whose name
was not in the jar, in the order of the response. -/
theorem mergeCookie_spec (f : Fetcher) (resp : Response)
    (hjar : (f.Cookies.map Cookie.Name).Nodup)
    (hresp : (resp.Cookies.map Cookie.Name).Nodup) :
    (mergeCookie f resp).Cookies =
      f.Cookies.map (fun cs => (resp.Cookies.find? (fun c => c.Name = cs.Name)).getD cs)
        ++ resp.Cookies.filter (fun c => decide (c.Name ∉ f.Cookies.map Cookie.Name)) :=
  mergeJar_eq f.Cookies resp.Cookies hjar hresp

/-- The scenario of C1: merging `[A, B]` into the empty jar gives `[A, B]`, and
merging `[B=2, C]` into that gives `[A, B=2, C]`. -/
theorem mergeCookie_spec_witness :
    (mergeCookie (NewFetcher "example.com") ⟨200, [cookieA, cookieB], [], none, ""⟩).Cookies
        = [cookieA, cookieB] ∧
      (mergeCookie { NewFetcher "example.com" with Cookies := [cookieA, cookieB] }
        ⟨200, [cookieB2, cookieC], [], none, ""⟩).Cookies = [cookieA, cookieB2, cookieC] :=
  ⟨(mergeCookie_spec (NewFetcher "example.com") ⟨200, [cookieA, cookieB], [], none, ""⟩
      (by decide) (by decide)).trans (by decide),
   (mergeCookie_spec { NewFetcher "example.com" with Cookies := [cookieA, cookieB] }
      ⟨200, [cookieB2, cookieC], [], none, ""⟩ (by decide) (by decide)).trans (by decide)⟩

/-- C2 (the code breaks the invariant). The jar of a new `Fetcher` is empty; a
response that presents the new name `A` twice leaves both cookies in the jar, so
the jar then holds two cookies named `A`. When the name is already in the jar the
same response overwrites it twice in place and the invariant survives. -/
theorem mergeCookie_duplicate_new_name :
    (NewFetcher "example.com").Cookies = [] ∧
      (mergeCookie (NewFetcher "example.com") ⟨200, [cookieA, cookieA2], [], none, ""⟩).Cookies
        = [cookieA, cookieA2] ∧
      ¬ ((mergeCookie (NewFetcher "example.com")
          ⟨200, [cookieA, cookieA2], [], none, ""⟩).Cookies.map Cookie.Name).Nodup ∧
      (mergeCookie { NewFetcher "example.com" with Cookies := [cookieA] }
        ⟨200, [cookieA, cookieA2], [], none, ""⟩).Cookies = [cookieA2] := by
  decide

/-! ## URL resolution -/

theorem makeUrl_state (env : Env) (f f1 : Fetcher) (path u : String)
    (h : makeUrl env f path = some (u, f1)) : f1 = f := by
  unfold makeUrl at h
  simp only at h
  split at h
  · simp only [Option.some.injEq, Prod.mk.injEq] at h
    exact h.2.symm
  · split at h
    · split at h
      · exact absurd h (by simp)
      · simp only [Option.some.injEq, Prod.mk.injEq] at h
        exact h.2.symm
    · simp only [Option.some.injEq, Prod.mk.injEq] at h
      exact h.2.symm

theorem makeUrl_relative (env : Env) (f : Fetcher) (path : String)
    (h : stringsIndex path "://" ≤ 0) : makeUrl env f path = some (originOf f ++ path, f) := by
  unfold makeUrl
  simp only [h, if_true, originOf]
  by_cases hh : f.Host = ""
  · simp [hh, String.append_assoc]
  · simp [hh, String.append_assoc]

theorem makeUrl_absolute (env : Env) (f : Fetcher) (path : String)
    (h : 0 < stringsIndex path "://")
    (hp : f.AutoHost = false ∨ ∃ uu, env.urlParse path = .ok uu) :
    makeUrl env f path = some (path, f) := by
  unfold makeUrl
  simp only [not_le.mpr h, if_false]
  rcases hp with hp | ⟨uu, hp⟩
  · cases hq : env.urlParse path <;> simp [hp]
  · simp [hp]

theorem makeUrl_absolute_panic (env : Env) (f : Fetcher) (path : String) (e : Error)
    (h : 0 < stringsIndex path "://") (ha : f.AutoHost = true)
    (hp : env.urlParse path = .error e) : makeUrl env f path = none := by
  unfold makeUrl
  simp [not_le.mpr h, hp, ha]

theorem makeUrl_empty (env : Env) (f : Fetcher) : makeUrl env f "" = some (originOf f, f) := by
  have h := makeUrl_relative env f "" (by decide)
  simpa using h

/-- C6 (the code panics where the claim promises the path back). The path
`http://other.com/%zz` has `://` at index 4 and `url.Parse` rejects it: with
`AutoHost` set `makeUrl` dereferences the nil URL and does not return; without
`AutoHost` it returns the path unchanged, as it does for every absolute path that
parses. -/
theorem makeUrl_unparsable_absolute_panics :
    stringsIndex "http://other.com/%zz" "://" = 4 ∧
      (makeUrl (demoEnv 0) { NewFetcher "example.com" with AutoHost := true }
        "http://other.com/%zz").isSome = false ∧
      (makeUrl (demoEnv 0) (NewFetcher "example.com") "http://other.com/%zz").map Prod.fst
        = some "http://other.com/%zz" ∧
      (makeUrl (demoEnv 0) (NewFetcher "example.com") "/path").map Prod.fst
        = some "http://example.com/path" ∧
      (makeUrl (demoEnv 0) (NewFetcher "example.com") "").map Prod.fst
        = some "http://example.com" := by
  decide

/-- C7 (the code never learns the host). With `Host = "example.com"` and `AutoHost`
set, `url.Parse` accepts `http://other.com/x` with host `other.com`; `makeUrl`
returns the URL and leaves `Host` at `example.com`. -/
theorem makeUrl_autoHost_keeps_host :
    ((demoEnv 0).urlParse "http://other.com/x").toOption.map URL.Host = some "other.com" ∧
      (makeUrl (demoEnv 0) { NewFetcher "example.com" with AutoHost := true }
        "http://other.com/x").map (fun r => (r.1, r.2.Host))
        = some ("http://other.com/x", "example.com") := by
  decide

/-! ## Request pipeline -/

theorem makeOtherHeader_eq (env : Env) (f : Fetcher) (req : Request) :
    makeOtherHeader env f req =
      some ({ req with Header := otherHeader f req.Header }, f) := by
  simp [makeOtherHeader, makeUrl_empty, otherHeader]

theorem beforeReq_eq (env : Env) (req : Request) (f : Fetcher) (w : World) :
    beforeReq env req (f, w) = some (decorate f req, (f, w)) := by
  simp [beforeReq, makeOtherHeader_eq, decorate]

theorem RoundTrip_of_error {σ : Type} (t : Transport σ) (req req1 : Request) (s s1 s2 : σ)
    (e : Error) (hb : t.BeforeReq req s = some (req1, s1))
    (ht : t.tr req1 s1 = (.error e, s2)) :
    t.RoundTrip req s = some (.error e, req1, s2) := by
  simp [Transport.RoundTrip, hb, ht]

theorem RoundTrip_of_ok {σ : Type} (t : Transport σ) (req req1 : Request) (s s1 s2 : σ)
    (resp : Response) (hb : t.BeforeReq req s = some (req1, s1))
    (ht : t.tr req1 s1 = (.ok resp, s2)) :
    t.RoundTrip req s = some (.ok resp, req1, t.AfterReq resp req1 s2) := by
  simp [Transport.RoundTrip, hb, ht]

theorem insertCookie_URL (f : Fetcher) (req : Request) : (insertCookie f req).URL = req.URL := by
  unfold insertCookie
  generalize f.Cookies = cs
  induction cs generalizing req with
  | nil => rfl
  | cons c cs ih =>
    rw [List.foldl_cons, ih]
    unfold Request.AddCookie
    simp only
    split <;> rfl

theorem decorate_URL (f : Fetcher) (req : Request) : (decorate f req).URL = req.URL := by
  unfold decorate insertReferer
  split
  · simp [insertCookie_URL]
  · simp [insertCookie_URL]

theorem fetcher_RoundTrip_of_error (env : Env) (f : Fetcher) (w : World) (req : Request)
    (e : Error) (h : env.send w.sends (decorate f req) = .error e) :
    (fetcherTransport env).RoundTrip req (f, w) =
      some (.error e, decorate f req, (f, { w with sends := w.sends + 1 })) :=
  RoundTrip_of_error (fetcherTransport env) req (decorate f req) (f, w) (f, w)
    (f, { w with sends := w.sends + 1 }) e (beforeReq_eq env req f w)
    (by simp [fetcherTransport, h])

theorem fetcher_RoundTrip_of_ok (env : Env) (f : Fetcher) (w : World) (req : Request)
    (resp : Response) (h : env.send w.sends (decorate f req) = .ok resp) :
    (fetcherTransport env).RoundTrip req (f, w) =
      some (.ok resp, decorate f req,
        ({ mergeCookie f resp with Referer := req.URL.Str },
          { w with sends := w.sends + 1 })) := by
  rw [RoundTrip_of_ok (fetcherTransport env) req (decorate f req) (f, w) (f, w)
    (f, { w with sends := w.sends + 1 }) resp (beforeReq_eq env req f w)
    (by simp [fetcherTransport, h])]
  simp [fetcherTransport, afterReq, decorate_URL]

theorem redirectBehavior_of_status (m : String) (resp : Response) (b : Option Reader)
    (h : isRedirectStatus resp.StatusCode = false) :
    redirectBehavior m resp b = ("", false, false) := by
  unfold isRedirectStatus at h
  simp only [Bool.or_eq_false_iff, beq_eq_false_iff_ne, ne_eq] at h
  obtain ⟨⟨⟨⟨h1, h2⟩, h3⟩, h4⟩, h5⟩ := h
  simp [redirectBehavior, h1, h2, h3, h4, h5]

theorem request_of_error (env : Env) (f : Fetcher) (w : World) (req : Request) (e : Error)
    (h : env.send w.sends (decorate f req) = .error e) :
    request env f w req =
      some (⟨none, [], some (.urlError (urlErrorOp req.Method) req.URL.Str e)⟩, f,
        { w with sends := w.sends + 1 }) := by
  unfold request Client.Do
  rw [doHops, fetcher_RoundTrip_of_error env f w req e h]

theorem request_of_ok (env : Env) (f : Fetcher) (w : World) (req : Request) (resp : Response)
    (h : env.send w.sends (decorate f req) = .ok resp)
    (hnr : isRedirectStatus resp.StatusCode = false) :
    request env f w req =
      some (⟨some resp, resp.Body, resp.BodyErr⟩,
        { mergeCookie f resp with Referer := req.URL.Str },
        { w with sends := w.sends + 1 }) := by
  unfold request Client.Do
  rw [doHops, fetcher_RoundTrip_of_ok env f w req resp h]
  simp only [redirectBehavior_of_status _ _ _ hnr]

theorem loadCache_session (env : Env) (f : Fetcher) (w : World) (key : String) :
    (loadCache env f w key).2.1.Referer = f.Referer ∧
      (loadCache env f w key).2.1.Cookies = f.Cookies ∧
      (loadCache env f w key).2.1.CacheTime = f.CacheTime ∧
      (loadCache env f w key).2.2.sends = w.sends ∧
      ((loadCache env f w key).1.2.2 = false → (loadCache env f w key).1 = (none, [], false)) := by
  unfold loadCache
  cases f.Cache key with
  | none => simp
  | some r =>
    simp only
    split <;> simp [cacheDelete]

theorem Get_of_failing_send (env : Env) (f : Fetcher) (w : World) (e : Error)
    (hfail : ∀ req, env.send w.sends req = .error e) (path : String)
    (hu : makeUrl env f path ≠ none) :
    ∃ r f1 w1, Get env f w path = some (r, f1, w1) ∧ f1.Referer = f.Referer ∧
      f1.Cookies = f.Cookies ∧
      (w1.sends ≠ w.sends →
        w1.sends = w.sends + 1 ∧ ∃ url, r.err = some (.urlError "Get" url e)) := by
  cases hm : makeUrl env f path with
  | none => exact absurd hm hu
  | some p =>
    obtain ⟨u, f0⟩ := p
    obtain rfl := makeUrl_state env f f0 path u hm
    unfold Get
    simp only [hm]
    cases hr : NewRequest env "GET" u none with
    | error e1 => exact ⟨_, _, _, rfl, rfl, rfl, fun h => absurd rfl h⟩
    | ok req =>
      simp only
      have hmeth : req.Method = "GET" := by
        unfold NewRequest at hr
        cases hp : env.urlParse u with
        | error e2 => simp [hp] at hr
        | ok pu =>
          simp only [hp, Except.ok.injEq] at hr
          rw [← hr]
      have hl := loadCache_session env f0 w ("get-" ++ u)
      rcases hc : loadCache env f0 w ("get-" ++ u) with ⟨⟨resp, body, ok⟩, f2, w2⟩
      rw [hc] at hl
      simp only at hl
      obtain ⟨h1, h2, _, h4, _⟩ := hl
      cases ok with
      | true => exact ⟨_, _, _, rfl, h1, h2, fun h => absurd h4 h⟩
      | false =>
        simp only
        rw [request_of_error env f2 w2 req e (by rw [h4]; exact hfail _)]
        refine ⟨_, _, _, rfl, h1, h2, fun _ => ⟨?_, req.URL.Str, ?_⟩⟩
        · show w2.sends + 1 = w.sends + 1
          rw [h4]
        · show some (Error.urlError (urlErrorOp req.Method) req.URL.Str e) = _
          rw [hmeth]
          rfl

theorem Post_of_failing_send (env : Env) (f : Fetcher) (w : World) (e : Error)
    (hfail : ∀ req, env.send w.sends req = .error e) (path ct : String) (content : Reader)
    (hu : makeUrl env f path ≠ none) :
    ∃ r f1 w1, Post env f w path ct content = some (r, f1, w1) ∧ f1.Referer = f.Referer ∧
      f1.Cookies = f.Cookies ∧
      (w1.sends ≠ w.sends →
        w1.sends = w.sends + 1 ∧ ∃ url, r.err = some (.urlError "Post" url e)) := by
  cases hm : makeUrl env f path with
  | none => exact absurd hm hu
  | some p =>
    obtain ⟨u, f0⟩ := p
    obtain rfl := makeUrl_state env f f0 path u hm
    unfold Post
    simp only [hm]
    cases hr : NewRequest env "POST" u (some content) with
    | error e1 => exact ⟨_, _, _, rfl, rfl, rfl, fun h => absurd rfl h⟩
    | ok req =>
      simp only
      have hmeth : req.Method = "POST" := by
        unfold NewRequest at hr
        cases hp : env.urlParse u with
        | error e2 => simp [hp] at hr
        | ok pu =>
          simp only [hp, Except.ok.injEq] at hr
          rw [← hr]
      rw [request_of_error env f0 w _ e (hfail _)]
      refine ⟨_, _, _, rfl, rfl, rfl, fun _ => ⟨rfl, req.URL.Str, ?_⟩⟩
      show some (Error.urlError (urlErrorOp req.Method) req.URL.Str e) = _
      rw [hmeth]
      rfl

/-- C3 as stated fails: `http.Client` follows redirects through the same transport.
The transport answers `Get("/")` with a 302 to `/next` that presents the cookie `B`,
and refuses the follow-up request. `Get` returns the error after two sends, and the
hooks of the first hop have merged `B` into the jar and moved `Referer` from
`http://163.com/login` to `http://163.com/`. -/
theorem failed_later_hop_changes_session :
    (Get (scriptEnv [.ok redirectResponse, .error (.raw "connection refused")])
        demoSession ⟨0, 0⟩ "/").map
        (fun x => (x.1, x.2.1.Referer, x.2.1.Cookies, x.2.2.sends))
        = some (⟨none, [],
            some (.urlError "Get" "http://163.com/next" (.raw "connection refused"))⟩,
          "http://163.com/", [cookieA, cookieB], 2) ∧
      demoSession.Referer = "http://163.com/login" ∧ demoSession.Cookies = [cookieA] := by
  decide

/-- C3, amended. When the wrapped transport answers a request with an error,
`Transport.RoundTrip` has run `BeforeReq`, returns that error and does not run
`AfterReq` (for any hooks: the state is the one the send left behind), and the
round trip of the session pipeline leaves the session as it was. When the send that
fails is the first send of a `Get` or `Post` whose URL resolves, the call returns
with `Referer` and `Cookies` equal to their values before the call, and whenever a
request was sent it was that one request and the error returned is the error of the
transport in a `*url.Error`. -/
theorem failed_send_leaves_session (env : Env) (f : Fetcher) (w : World) (e : Error)
    (hfail : ∀ req, env.send w.sends req = .error e) :
    (∀ (σ : Type) (t : Transport σ) (req req1 : Request) (s s1 s2 : σ) (e1 : Error),
        t.BeforeReq req s = some (req1, s1) → t.tr req1 s1 = (.error e1, s2) →
        t.RoundTrip req s = some (.error e1, req1, s2)) ∧
      (∀ req, (fetcherTransport env).RoundTrip req (f, w) =
        some (.error e, decorate f req, (f, { w with sends := w.sends + 1 }))) ∧
      (∀ path, makeUrl env f path ≠ none →
        ∃ r f1 w1, Get env f w path = some (r, f1, w1) ∧ f1.Referer = f.Referer ∧
          f1.Cookies = f.Cookies ∧
          (w1.sends ≠ w.sends →
            w1.sends = w.sends + 1 ∧ ∃ url, r.err = some (.urlError "Get" url e))) ∧
      (∀ path ct content, makeUrl env f path ≠ none →
        ∃ r f1 w1, Post env f w path ct content = some (r, f1, w1) ∧
          f1.Referer = f.Referer ∧ f1.Cookies = f.Cookies ∧
          (w1.sends ≠ w.sends →
            w1.sends = w.sends + 1 ∧ ∃ url, r.err = some (.urlError "Post" url e))) :=
  ⟨fun _ t req req1 s s1 s2 e1 hb ht => RoundTrip_of_error t req req1 s s1 s2 e1 hb ht,
   fun req => fetcher_RoundTrip_of_error env f w req e (hfail _),
   fun path hu => Get_of_failing_send env f w e hfail path hu,
   fun path ct content hu => Post_of_failing_send env f w e hfail path ct content hu⟩

/-- The scenario of C3, amended: the transport refuses the first request of
`Get("/")`; the call returns the error in a `*url.Error` after one send and the
referer and the jar are as before. -/
theorem failed_send_leaves_session_witness :
    (Get (demoEnv 1) demoSession ⟨0, 0⟩ "/").map
        (fun x => (x.1, x.2.1.Referer, x.2.1.Cookies, x.2.2))
        = some (⟨none, [],
            some (.urlError "Get" "http://163.com/" (.raw "connection refused"))⟩,
          "http://163.com/login", [cookieA], ⟨1, 0⟩) ∧
      ∃ r f1 w1, Get (demoEnv 1) demoSession ⟨0, 0⟩ "/" = some (r, f1, w1) ∧
        f1.Referer = demoSession.Referer ∧ f1.Cookies = demoSession.Cookies ∧
        (w1.sends ≠ 0 →
          w1.sends = 0 + 1 ∧
            ∃ url, r.err = some (.urlError "Get" url (.raw "connection refused"))) :=
  ⟨by decide,
   (failed_send_leaves_session (demoEnv 1) demoSession ⟨0, 0⟩ (.raw "connection refused")
      (fun _ => rfl)).2.2.1 "/"
      (by rw [makeUrl_relative (demoEnv 1) demoSession "/" (by decide)]
          exact Option.some_ne_none _)⟩

/-! ## Response cache -/

theorem wrapInt64_of_range (x : Int) (h1 : -(2 ^ 63) ≤ x) (h2 : x < 2 ^ 63) :
    wrapInt64 x = x := by
  unfold wrapInt64
  omega

/-- C4. With `CacheTime = T > 0`, an entry stored by `saveCache` when the clock
reads `t0` is returned by `loadCache` as a hit when the clock reads `t0 + T`, the
cache being left as it was, and is reported as a miss and deleted when the clock
reads `t0 + T + 1` (clock readings are non-negative `int64` seconds). -/
theorem cache_ttl_boundary (env : Env) (f : Fetcher) (w w1 w2 : World) (key : String)
    (resp : Option Response) (body : Bytes) (T t0 : Int)
    (hT : 0 < T) (hf : f.CacheTime = T) (h0 : 0 ≤ t0) (hmax : t0 + T + 1 < 2 ^ 63)
    (hstore : env.now w.clockReads = t0)
    (hhit : env.now w1.clockReads = t0 + T)
    (hmiss : env.now w2.clockReads = t0 + T + 1) :
    loadCache env (saveCache env f w key resp body).1 w1 key =
        ((resp, body, true), (saveCache env f w key resp body).1,
          { w1 with clockReads := w1.clockReads + 1 }) ∧
      loadCache env (saveCache env f w key resp body).1 w2 key =
        ((none, [], false), cacheDelete (saveCache env f w key resp body).1 key,
          { w2 with clockReads := w2.clockReads + 1 }) ∧
      (cacheDelete (saveCache env f w key resp body).1 key).Cache key = none ∧
      ∀ k, k ≠ key →
        (cacheDelete (saveCache env f w key resp body).1 key).Cache k = f.Cache k := by
  have e1 : wrapInt64 (t0 + T - t0) = T := by
    rw [show t0 + T - t0 = T by ring]
    exact wrapInt64_of_range T (by omega) (by omega)
  have e2 : wrapInt64 (t0 + T + 1 - t0) = T + 1 := by
    rw [show t0 + T + 1 - t0 = T + 1 by ring]
    exact wrapInt64_of_range (T + 1) (by omega) (by omega)
  have c1 : (saveCache env f w key resp body).1.Cache key = some ⟨resp, body, t0⟩ := by
    simp [saveCache, hstore]
  have c2 : (saveCache env f w key resp body).1.CacheTime = T := hf
  refine ⟨?_, ?_, ?_, ?_⟩
  · unfold loadCache
    rw [c1]
    simp only [hhit, e1, c2, gt_iff_lt, lt_self_iff_false, if_false]
  · unfold loadCache
    rw [c1]
    simp only [hmiss, e2, c2, gt_iff_lt, lt_add_one, if_true]
  · simp [cacheDelete]
  · intro k hk
    simp [cacheDelete, saveCache, hk]

/-- The scenario of C4 with `T = 60`: stored at second 1000, a hit at second 1060
and a miss at second 1061. -/
theorem cache_ttl_boundary_witness :
    loadCache (demoEnv 0)
        (saveCache (demoEnv 0) { NewFetcher "163.com" with CacheTime := 60 } ⟨0, 0⟩
          "get-http://163.com/" (some demoResponse) [104, 105]).1 ⟨1, 1⟩ "get-http://163.com/" =
        ((some demoResponse, [104, 105], true),
          (saveCache (demoEnv 0) { NewFetcher "163.com" with CacheTime := 60 } ⟨0, 0⟩
            "get-http://163.com/" (some demoResponse) [104, 105]).1,
          { (⟨1, 1⟩ : World) with clockReads := (⟨1, 1⟩ : World).clockReads + 1 }) ∧
      (loadCache (demoEnv 0)
        (saveCache (demoEnv 0) { NewFetcher "163.com" with CacheTime := 60 } ⟨0, 0⟩
          "get-http://163.com/" (some demoResponse) [104, 105]).1 ⟨1, 2⟩
          "get-http://163.com/").1 = (none, [], false) :=
  have h := cache_ttl_boundary (demoEnv 0) { NewFetcher "163.com" with CacheTime := 60 }
    ⟨0, 0⟩ ⟨1, 1⟩ ⟨1, 2⟩ "get-http://163.com/" (some demoResponse) [104, 105] 60 1000
    (by decide) rfl (by decide) (by decide) rfl rfl rfl
  ⟨h.1, congrArg Prod.fst h.2.1⟩

theorem loadCache_miss_iff (env : Env) (f : Fetcher) (w : World) (key : String) :
    (loadCache env f w key).1.2.2 = false ↔
      (f.Cache key = none ∨
        ∃ r, f.Cache key = some r ∧
          f.CacheTime < wrapInt64 (env.now w.clockReads - r.CacheTime)) := by
  unfold loadCache
  cases h : f.Cache key with
  | none => simp
  | some r =>
    simp only
    split
    · rename_i hgt
      simp [hgt]
    · rename_i hgt
      simp [hgt]

/-- C5 (the lookup misses the guard of the store). `Get` calls `saveCache` only
when `CacheTime > 0`; `loadCache` has no such test. `staleSession` has
`CacheTime = 0` and its cache map holds an entry stored at second 1000: when the
clock reads 1000 `loadCache` returns the entry as a hit and `Get("/")` returns it
without sending anything. -/
theorem loadCache_hits_when_disabled :
    staleSession.CacheTime ≤ 0 ∧
      (loadCache (demoEnv 0) staleSession ⟨0, 0⟩ "get-http://163.com/").1
        = (some demoResponse, [104, 105], true) ∧
      (Get (demoEnv 0) staleSession ⟨0, 0⟩ "/").map (fun x => (x.1, x.2.2.sends))
        = some (⟨some demoResponse, [104, 105], none⟩, 0) := by
  decide

theorem RemoveGetCache_relative (f : Fetcher) (path : String) :
    (RemoveGetCache f path).Cache ("get-" ++ (originOf f ++ path)) = none := by
  have hk : (if f.Https = true then "get-" ++ "http" ++ "s" else "get-" ++ "http")
      ++ ("://" ++ f.Host ++ path) = "get-" ++ (originOf f ++ path) := by
    have hs : "https" = "http" ++ "s" := by decide
    unfold originOf
    cases f.Https
    · simp only [Bool.false_eq_true, if_false, String.append_assoc]
    · simp only [if_true, hs, String.append_assoc]
  unfold RemoveGetCache
  simp only [hk]
  cases h : f.Cache ("get-" ++ (originOf f ++ path)) with
  | none => simp [h]
  | some r => simp [cacheDelete]

/-- C9 (the code computes another key for an absolute path). With host `163.com`
and `CacheTime = 60`, `Get("http://other.com/x")` sends one request and stores the
response under `get-http://other.com/x`; `RemoveGetCache("http://other.com/x")`
looks for `get-http://163.comhttp://other.com/x` and deletes nothing; the next
`Get("http://other.com/x")` is a hit and sends nothing (one send in all). For the
relative path `/` the same three calls delete the entry and send twice. -/
theorem RemoveGetCache_misses_absolute_path :
    ((Get (demoEnv 0) { NewFetcher "163.com" with CacheTime := 60 } ⟨0, 0⟩
        "http://other.com/x").bind fun s1 =>
      (Get (demoEnv 0) (RemoveGetCache s1.2.1 "http://other.com/x") s1.2.2
        "http://other.com/x").map fun s3 =>
        (s1.2.2.sends,
          ((RemoveGetCache s1.2.1 "http://other.com/x").Cache "get-http://other.com/x").isSome,
          s3.1.err, s3.2.2.sends)) = some (1, true, none, 1) ∧
      ((Get (demoEnv 0) { NewFetcher "163.com" with CacheTime := 60 } ⟨0, 0⟩ "/").bind fun s1 =>
        (Get (demoEnv 0) (RemoveGetCache s1.2.1 "/") s1.2.2 "/").map fun s3 =>
          (s1.2.2.sends, ((RemoveGetCache s1.2.1 "/").Cache "get-http://163.com/").isSome,
            s3.1.err, s3.2.2.sends)) = some (1, false, none, 2) := by
  decide

/-! ## Retry -/

theorem PostForm_of_error (env : Env) (f : Fetcher) (w : World) (path : String)
    (val : Option Values) (u : String) (pu : URL) (e : Error)
    (hu : makeUrl env f path = some (u, f)) (hp : env.urlParse u = .ok pu)
    (hs : env.send w.sends (decorate f (postFormRequest env pu val)) = .error e) :
    PostForm env f w path val =
      some (⟨none, [], some (.urlError "Post" pu.Str e)⟩, f,
        { w with sends := w.sends + 1 }) := by
  unfold PostForm Post
  simp only [hu, NewRequest, hp]
  have hq := request_of_error env f w (postFormRequest env pu val) e hs
  unfold postFormRequest at hq
  rw [hq]
  rfl

theorem PostForm_of_ok (env : Env) (f : Fetcher) (w : World) (path : String)
    (val : Option Values) (u : String) (pu : URL) (resp : Response)
    (hu : makeUrl env f path = some (u, f)) (hp : env.urlParse u = .ok pu)
    (hs : ∀ req, env.send w.sends req = .ok resp)
    (hnr : isRedirectStatus resp.StatusCode = false) (hb : resp.BodyErr = none) :
    PostForm env f w path val =
      some (⟨some resp, resp.Body, none⟩, { mergeCookie f resp with Referer := u },
        { w with sends := w.sends + 1 }) := by
  unfold PostForm Post
  simp only [hu, NewRequest, hp]
  rw [request_of_ok env f w _ resp (hs _) hnr]
  simp [hb]

theorem retryLoop_all_fail (env : Env) (f : Fetcher) (path : String) (val : Option Values)
    (u : String) (pu : URL)
    (hu : makeUrl env f path = some (u, f)) (hp : env.urlParse u = .ok pu)
    (m : Nat) (w : World) (r : Result) (e : Nat → Error)
    (h : ∀ i, i < m → ∀ req, env.send (w.sends + i) req = .error (e i)) :
    retryLoop env path val m r f w =
      some (if m = 0 then r else ⟨none, [], some (.urlError "Post" pu.Str (e (m - 1)))⟩, f,
        { w with sends := w.sends + m }) := by
  induction m generalizing w r e with
  | zero => rfl
  | succ m ih =>
    have h0 : ∀ req, env.send w.sends req = .error (e 0) := fun req => by
      simpa using h 0 (Nat.succ_pos m) req
    rw [retryLoop, PostForm_of_error env f w path val u pu (e 0) hu hp (h0 _)]
    simp only [reduceCtorEq, if_false]
    rw [ih { w with sends := w.sends + 1 } _ (fun i => e (i + 1))
      (fun i hi req => by
        have := h (i + 1) (by omega) req
        rwa [show w.sends + (i + 1) = w.sends + 1 + i by omega] at this)]
    have hw : w.sends + 1 + m = w.sends + (m + 1) := by omega
    cases m with
    | zero => rfl
    | succ m => simp only [Nat.add_one_ne_zero, if_false, Nat.add_sub_cancel, hw]

theorem retryLoop_succeeds (env : Env) (f : Fetcher) (path : String) (val : Option Values)
    (u : String) (pu : URL) (resp : Response)
    (hu : makeUrl env f path = some (u, f)) (hp : env.urlParse u = .ok pu)
    (hnr : isRedirectStatus resp.StatusCode = false) (hb : resp.BodyErr = none)
    (k m : Nat) (w : World) (r : Result) (hk : k < m)
    (hfail : ∀ i, i < k → ∀ req, ∃ e, env.send (w.sends + i) req = .error e)
    (hok : ∀ req, env.send (w.sends + k) req = .ok resp) :
    retryLoop env path val m r f w =
      some (⟨some resp, resp.Body, none⟩, { mergeCookie f resp with Referer := u },
        { w with sends := w.sends + (k + 1) }) := by
  induction k generalizing m w r with
  | zero =>
    obtain ⟨m, rfl⟩ : ∃ j, m = j + 1 := ⟨m - 1, by omega⟩
    rw [retryLoop, PostForm_of_ok env f w path val u pu resp hu hp
      (fun req => by simpa using hok req) hnr hb]
    simp
  | succ k ih =>
    obtain ⟨m, rfl⟩ : ∃ j, m = j + 1 := ⟨m - 1, by omega⟩
    obtain ⟨e0, he0⟩ := hfail 0 (Nat.succ_pos k) (decorate f (postFormRequest env pu val))
    rw [retryLoop, PostForm_of_error env f w path val u pu e0 hu hp (by simpa using he0)]
    simp only [reduceCtorEq, if_false]
    rw [ih m { w with sends := w.sends + 1 } _ (by omega)
      (fun i hi req => by
        have := hfail (i + 1) (by omega) req
        rwa [show w.sends + (i + 1) = w.sends + 1 + i by omega] at this)
      (fun req => by
        have := hok req
        rwa [show w.sends + (k + 1) = w.sends + 1 + k by omega] at this)]
    have hw : w.sends + 1 + (k + 1) = w.sends + (k + 1 + 1) := by omega
    simp only [hw]

/-- C8 as stated fails: a `PostForm` attempt is more than one send that succeeds.
With three attempts allowed and a transport none of whose sends fail: when the
body of each response breaks off while it is read, every attempt fails and
`PostFormRetry` returns the read error after three sends; when the URL of the path
does not parse, three attempts fail without any send. When the first send is
answered by a 302 and the follow-up request is refused, the first attempt fails
after two sends, and the second attempt succeeds on the third send. -/
theorem PostFormRetry_counterexample :
    (PostFormRetry (scriptEnv [.ok brokenResponse, .ok brokenResponse, .ok brokenResponse])
        (NewFetcher "163.com") ⟨0, 0⟩ "/" none 3).map (fun x => (x.1, x.2.2.sends))
        = some (⟨some brokenResponse, [104], some (.raw "unexpected EOF")⟩, 3) ∧
      (PostFormRetry (demoEnv 0) (NewFetcher "163.com") ⟨0, 0⟩ "/%zz" none 3).map
        (fun x => (x.1.err.isSome, x.2.2.sends)) = some (true, 0) ∧
      (PostForm (scriptEnv [.ok redirectResponse, .error (.raw "connection refused")])
        (NewFetcher "163.com") ⟨0, 0⟩ "/" none).map
        (fun x => (x.1.err.isSome, x.2.2.sends)) = some (true, 2) ∧
      (PostFormRetry (scriptEnv [.ok redirectResponse, .error (.raw "connection refused")])
        (NewFetcher "163.com") ⟨0, 0⟩ "/" none 3).map (fun x => (x.1, x.2.2.sends))
        = some (⟨some demoResponse, [104, 105], none⟩, 3) := by
  decide

/-- C8, amended. Let the URL of `path` resolve and parse and let `n >= 1`. Against
a transport whose first `k < n` sends fail and whose next send is answered by a
response that is no redirect (status other than 301, 302, 303, 307, 308) and whose
body reads without error, `PostFormRetry` returns that response with no error after
exactly `k + 1` sends, one per `PostForm` attempt; against a transport all of whose
sends fail it returns the error of the `n`-th attempt, the error of the transport in
a `*url.Error`, after exactly `n` sends, one per attempt, the session being left as
it was. -/
theorem PostFormRetry_spec (env : Env) (f : Fetcher) (w : World) (path : String)
    (val : Option Values) (n : Int) (u : String) (pu : URL)
    (hn : 1 ≤ n) (hu : makeUrl env f path = some (u, f)) (hp : env.urlParse u = .ok pu) :
    (∀ (k : Nat) (resp : Response), (k : Int) < n →
        (∀ i, i < k → ∀ req, ∃ e, env.send (w.sends + i) req = .error e) →
        (∀ req, env.send (w.sends + k) req = .ok resp) →
        isRedirectStatus resp.StatusCode = false → resp.BodyErr = none →
        PostFormRetry env f w path val n =
          some (⟨some resp, resp.Body, none⟩, { mergeCookie f resp with Referer := u },
            { w with sends := w.sends + (k + 1) })) ∧
      (∀ e : Nat → Error,
        (∀ i : Nat, (i : Int) < n → ∀ req, env.send (w.sends + i) req = .error (e i)) →
        PostFormRetry env f w path val n =
          some (⟨none, [], some (.urlError "Post" pu.Str (e (n.toNat - 1)))⟩, f,
            { w with sends := w.sends + n.toNat })) := by
  constructor
  · intro k resp hk hfail hok hnr hb
    exact retryLoop_succeeds env f path val u pu resp hu hp hnr hb k n.toNat w _ (by omega)
      hfail hok
  · intro e h
    unfold PostFormRetry
    rw [retryLoop_all_fail env f path val u pu hu hp n.toNat w _ e
      (fun i hi req => h i (by omega) req)]
    have : n.toNat ≠ 0 := by omega
    simp [this]

/-- The scenario of C8, amended: `n = 3` and a transport that fails twice and then
answers with status 200 and a readable body give the successful result after
exactly 3 sends. -/
theorem PostFormRetry_spec_witness :
    (PostFormRetry (demoEnv 2) (NewFetcher "163.com") ⟨0, 0⟩ "/" none 3).map
        (fun x => (x.1, x.2.2)) = some (⟨some demoResponse, [104, 105], none⟩, ⟨3, 0⟩) ∧
      PostFormRetry (demoEnv 2) (NewFetcher "163.com") ⟨0, 0⟩ "/" none 3 =
        some (⟨some demoResponse, demoResponse.Body, none⟩,
          { mergeCookie (NewFetcher "163.com") demoResponse with Referer := "http://163.com/" },
          { (⟨0, 0⟩ : World) with sends := (⟨0, 0⟩ : World).sends + (2 + 1) }) :=
  ⟨by decide,
   (PostFormRetry_spec (demoEnv 2) (NewFetcher "163.com") ⟨0, 0⟩ "/" none 3
      "http://163.com/" ⟨"http", "163.com", "http://163.com/"⟩ (by decide)
      ((makeUrl_relative (demoEnv 2) (NewFetcher "163.com") "/" (by decide)).trans (by rfl))
      (by rfl)).1 2 demoResponse (by decide)
      (fun i hi _ => ⟨.raw "connection refused", by
        simp [demoEnv, hi]⟩)
      (fun _ => rfl) (by decide) rfl⟩

/-! ## Header policy -/

theorem setAll_of_not_named (h : Header) (kvs : List (String × String)) (name : String)
    (hn : ∀ kv ∈ kvs, CanonicalMIMEHeaderKey kv.1 ≠ name) : setAll h kvs name = h name := by
  induction kvs generalizing h with
  | nil => rfl
  | cons kv rest ih =>
    have h1 : name ≠ CanonicalMIMEHeaderKey kv.1 := fun e => hn kv (List.mem_cons_self _ _) e.symm
    show setAll (Header.Set h kv.1 kv.2) rest name = h name
    rw [ih _ (fun x hx => hn x (List.mem_cons_of_mem _ hx))]
    simp [Header.Set, h1]

theorem setAll_of_unique (h : Header) (kvs : List (String × String)) (k v : String)
    (hmem : (k, v) ∈ kvs)
    (hu : ∀ kv ∈ kvs, CanonicalMIMEHeaderKey kv.1 = CanonicalMIMEHeaderKey k → kv = (k, v)) :
    setAll h kvs (CanonicalMIMEHeaderKey k) = some [v] := by
  induction kvs generalizing h with
  | nil => simp at hmem
  | cons kv rest ih =>
    show setAll (Header.Set h kv.1 kv.2) rest (CanonicalMIMEHeaderKey k) = some [v]
    by_cases hin : (k, v) ∈ rest
    · exact ih _ hin (fun x hx => hu x (List.mem_cons_of_mem _ hx))
    · have hkv : kv = (k, v) := by
        rcases List.mem_cons.mp hmem with e | e
        · exact e.symm
        · exact absurd e hin
      rw [setAll_of_not_named _ rest _ (fun x hx e =>
        hin (hu x (List.mem_cons_of_mem _ hx) e ▸ hx))]
      simp [Header.Set, hkv]

theorem setAll_fixedHeaders (h : Header) (origin agent name val : String)
    (hm : (name, val) ∈ fixedHeaders origin agent) :
    setAll h (fixedHeaders origin agent) name = some [val] := by
  have c1 : CanonicalMIMEHeaderKey "Accept" = "Accept" := by decide
  have c2 : CanonicalMIMEHeaderKey "Origin" = "Origin" := by decide
  have c3 : CanonicalMIMEHeaderKey "X-Requested-With" = "X-Requested-With" := by decide
  have c4 : CanonicalMIMEHeaderKey "User-Agent" = "User-Agent" := by decide
  have c5 : CanonicalMIMEHeaderKey "Accept-Encoding" = "Accept-Encoding" := by decide
  have c6 : CanonicalMIMEHeaderKey "Accept-Language" = "Accept-Language" := by decide
  simp only [fixedHeaders, List.mem_cons, Prod.mk.injEq, List.mem_singleton, List.not_mem_nil,
    or_false] at hm
  rcases hm with ⟨rfl, rfl⟩ | ⟨rfl, rfl⟩ | ⟨rfl, rfl⟩ | ⟨rfl, rfl⟩ | ⟨rfl, rfl⟩ | ⟨rfl, rfl⟩ <;>
    simp [setAll, fixedHeaders, Header.Set, c1, c2, c3, c4, c5, c6]

/-- C10 as stated fails: the custom map may hold `x-a` and `X-A`, which
`Header.Set` files under the same name `X-A`. Whichever entry `range` visits last
overwrites the other, so in either order one registered header is on the request
with the value of the other. -/
theorem custom_header_clash_counterexample :
    CanonicalMIMEHeaderKey "x-a" = "X-A" ∧ CanonicalMIMEHeaderKey "X-A" = "X-A" ∧
      (makeOtherHeader (demoEnv 0)
          { NewFetcher "example.com" with Header := ⟨"", [("x-a", "1"), ("X-A", "2")]⟩ }
          demoRequest).map (fun r => r.1.Header (CanonicalMIMEHeaderKey "x-a"))
        = some (some ["2"]) ∧
      (makeOtherHeader (demoEnv 0)
          { NewFetcher "example.com" with Header := ⟨"", [("X-A", "2"), ("x-a", "1")]⟩ }
          demoRequest).map (fun r => r.1.Header (CanonicalMIMEHeaderKey "X-A"))
        = some (some ["1"]) := by
  decide

/-- C10, amended. `makeOtherHeader` returns and leaves the session as it was. On
the request, every custom entry `(k, v)` whose canonical name is shared by no other
custom entry is present with value `v`, also when `k` names a fixed header; and
each of the six fixed headers whose name is the canonical name of no custom entry
has its fixed value, `Origin` being `scheme://Host` and `User-Agent` being
`Header.Agent` when that is non-empty and the default agent otherwise. -/
theorem makeOtherHeader_spec (env : Env) (f : Fetcher) (req : Request) :
    ∃ req1, makeOtherHeader env f req = some (req1, f) ∧
      (∀ k v, (k, v) ∈ f.Header.Custom →
        (∀ kv ∈ f.Header.Custom,
          CanonicalMIMEHeaderKey kv.1 = CanonicalMIMEHeaderKey k → kv = (k, v)) →
        req1.Header (CanonicalMIMEHeaderKey k) = some [v]) ∧
      (∀ name val,
        (name, val) ∈
          [("Accept", "application/json, text/javascript, */*; q=0.01"),
           ("Origin", (if f.Https then "https" else "http") ++ "://" ++ f.Host),
           ("X-Requested-With", "XMLHttpRequest"),
           ("User-Agent", if f.Header.Agent ≠ "" then f.Header.Agent else defaultAgent),
           ("Accept-Encoding", "none"),
           ("Accept-Language", "en-US,en;q=0.8")] →
        (∀ kv ∈ f.Header.Custom, CanonicalMIMEHeaderKey kv.1 ≠ name) →
        req1.Header name = some [val]) := by
  refine ⟨_, makeOtherHeader_eq env f req, ?_, ?_⟩
  · intro k v hmem hu
    exact setAll_of_unique _ _ k v hmem hu
  · intro name val hm hn
    show setAll (setAll req.Header (fixedHeaders (originOf f) (agentOf f))) f.Header.Custom name
      = some [val]
    rw [setAll_of_not_named _ _ _ hn]
    exact setAll_fixedHeaders _ _ _ name val hm

/-- The scenario of C10, amended: with `Header.Agent = "my-agent"` and the custom
entries `user-agent: curl` and `X-Token: t`, the request carries `User-Agent: curl`
and `X-Token: t`, and `Accept` keeps its fixed value. -/
theorem makeOtherHeader_spec_witness :
    ∃ req1, makeOtherHeader (demoEnv 0) customSession demoRequest = some (req1, customSession) ∧
      req1.Header "User-Agent" = some ["curl"] ∧ req1.Header "X-Token" = some ["t"] ∧
      req1.Header "Accept" = some ["application/json, text/javascript, */*; q=0.01"] := by
  obtain ⟨req1, h, hc, hf⟩ := makeOtherHeader_spec (demoEnv 0) customSession demoRequest
  exact ⟨req1, h, hc "user-agent" "curl" (by decide) (by decide),
    hc "X-Token" "t" (by decide) (by decide),
    hf "Accept" _ (by decide) (by decide)⟩

end GoFetcher
